import Mathlib

/-!
Formal model of the core of the `gospodi_pomogi` trading-webhook bot:
the WhiteBit exchange client (`whitebit_api.py`) and the Telegram
command router (`main.py`).

Bytes are modelled as `List Nat` (each element < 256), Python strings as
Lean `String`, and Python dicts with string keys and string values as
insertion-ordered association lists `List (String × String)`.  Machine
64-bit arithmetic inside SHA-512 is `Nat` arithmetic reduced modulo
`2 ^ 64`.  Wall-clock time (`time.time()`), being an external effect, is
passed to the model as an explicit argument `nowMs : Nat`, the current
epoch time in milliseconds (`int(time.time() * 1000)`).
-/

namespace WhiteBit

/-- Truncation to a 64-bit word: arithmetic in SHA-512 is modulo `2 ^ 64`. -/
def w64 (n : Nat) : Nat := n % (2 ^ 64)

/-- Right rotation of a 64-bit word by `n` bits. -/
def rotr (n x : Nat) : Nat := w64 ((x >>> n) ||| (x <<< (64 - n)))

/-- Bitwise complement of a 64-bit word. -/
def bnot64 (x : Nat) : Nat := x ^^^ (2 ^ 64 - 1)

/-- SHA-512 Σ₀. -/
def bigSigma0 (x : Nat) : Nat := rotr 28 x ^^^ rotr 34 x ^^^ rotr 39 x

/-- SHA-512 Σ₁. -/
def bigSigma1 (x : Nat) : Nat := rotr 14 x ^^^ rotr 18 x ^^^ rotr 41 x

/-- SHA-512 σ₀. -/
def smallSigma0 (x : Nat) : Nat := rotr 1 x ^^^ rotr 8 x ^^^ (x >>> 7)

/-- SHA-512 σ₁. -/
def smallSigma1 (x : Nat) : Nat := rotr 19 x ^^^ rotr 61 x ^^^ (x >>> 6)

/-- SHA-512 choice function. -/
def chFn (x y z : Nat) : Nat := (x &&& y) ^^^ (bnot64 x &&& z)

/-- SHA-512 majority function. -/
def majFn (x y z : Nat) : Nat := (x &&& y) ^^^ (x &&& z) ^^^ (y &&& z)

/-- The 80 SHA-512 round constants of FIPS 180-4, written in decimal. -/
def sha512K : List Nat :=
  [4794697086780616226, 8158064640168781261, 13096744586834688815,
   16840607885511220156, 4131703408338449720, 6480981068601479193,
   10538285296894168987, 12329834152419229976, 15566598209576043074,
   1334009975649890238, 2608012711638119052, 6128411473006802146,
   8268148722764581231, 9286055187155687089, 11230858885718282805,
   13951009754708518548, 16472876342353939154, 17275323862435702243,
   1135362057144423861, 2597628984639134821, 3308224258029322869,
   5365058923640841347, 6679025012923562964, 8573033837759648693,
   10970295158949994411, 12119686244451234320, 12683024718118986047,
   13788192230050041572, 14330467153632333762, 15395433587784984357,
   489312712824947311, 1452737877330783856, 2861767655752347644,
   3322285676063803686, 5560940570517711597, 5996557281743188959,
   7280758554555802590, 8532644243296465576, 9350256976987008742,
   10552545826968843579, 11727347734174303076, 12113106623233404929,
   14000437183269869457, 14369950271660146224, 15101387698204529176,
   15463397548674623760, 17586052441742319658, 1182934255886127544,
   1847814050463011016, 2177327727835720531, 2830643537854262169,
   3796741975233480872, 4115178125766777443, 5681478168544905931,
   6601373596472566643, 7507060721942968483, 8399075790359081724,
   8693463985226723168, 9568029438360202098, 10144078919501101548,
   10430055236837252648, 11840083180663258601, 13761210420658862357,
   14299343276471374635, 14566680578165727644, 15097957966210449927,
   16922976911328602910, 17689382322260857208, 500013540394364858,
   748580250866718886, 1242879168328830382, 1977374033974150939,
   2944078676154940804, 3659926193048069267, 4368137639120453308,
   4836135668995329356, 5532061633213252278, 6448918945643986474,
   6902733635092675308, 7801388544844847127]

/-- The 8 initial SHA-512 hash values of FIPS 180-4, written in decimal. -/
def sha512H0 : List Nat :=
  [7640891576956012808, 13503953896175478587,
   4354685564936845355, 11912009170470909681,
   5840696475078001361, 11170449401992604703,
   2270897969802886507, 6620516959819538809]

/-- Pad a byte message per SHA-512: append `0x80`, zeros, then the bit
length as a 16-byte big-endian integer, reaching a multiple of 128 bytes. -/
def sha512Pad (msg : List Nat) : List Nat :=
  let zeros := (112 + 128 - ((msg.length + 1) % 128)) % 128
  msg ++ [0x80] ++ List.replicate zeros 0 ++
    (List.range 16).map (fun i => ((msg.length * 8) >>> ((15 - i) * 8)) % 256)

/-- Big-endian 64-bit word from 8 bytes starting at byte offset `8 * t`. -/
def wordAt (block : List Nat) (t : Nat) : Nat :=
  ((block.drop (8 * t)).take 8).foldl (fun a b => a * 256 + b) 0

/-- The 80-entry SHA-512 message schedule of one 128-byte block. -/
def msgSchedule (block : List Nat) : List Nat :=
  (List.range 80).foldl
    (fun ws t =>
      if t < 16 then ws ++ [wordAt block t]
      else ws ++ [w64 (smallSigma1 (ws.getD (t - 2) 0) + ws.getD (t - 7) 0 +
                       smallSigma0 (ws.getD (t - 15) 0) + ws.getD (t - 16) 0)])
    []

/-- One SHA-512 compression step over an 8-word state. -/
def sha512Round (k w : Nat) (st : List Nat) : List Nat :=
  match st with
  | [a, b, c, d, e, f, g, h] =>
    let t1 := w64 (h + bigSigma1 e + chFn e f g + k + w)
    let t2 := w64 (bigSigma0 a + majFn a b c)
    [w64 (t1 + t2), a, b, c, w64 (d + t1), e, f, g]
  | other => other

/-- Compress one 128-byte block into the running hash. -/
def sha512Compress (hash block : List Nat) : List Nat :=
  let ws := msgSchedule block
  let final := (List.range 80).foldl
    (fun st t => sha512Round (sha512K.getD t 0) (ws.getD t 0) st) hash
  (hash.zip final).map (fun p => w64 (p.1 + p.2))

/-- SHA-512 of a byte list, producing the 64-byte digest. -/
def sha512 (msg : List Nat) : List Nat :=
  let padded := sha512Pad msg
  let hash := (List.range (padded.length / 128)).foldl
    (fun h i => sha512Compress h ((padded.drop (128 * i)).take 128)) sha512H0
  hash.foldr (fun word acc => (List.range 8).map (fun i => (word >>> ((7 - i) * 8)) % 256) ++ acc) []

/-- HMAC with SHA-512 (`hmac.new(key, msg, hashlib.sha512)`): block size
128 bytes, inner pad `0x36`, outer pad `0x5c`. -/
def hmacSha512 (key msg : List Nat) : List Nat :=
  let k0 := if 128 < key.length then sha512 key else key
  let k := k0 ++ List.replicate (128 - k0.length) 0
  sha512 ((k.map (fun b => b ^^^ 0x5c)) ++ sha512 ((k.map (fun b => b ^^^ 0x36)) ++ msg))

/-- Lower-case hex digit. -/
def hexChar (n : Nat) : Char := if n < 10 then Char.ofNat (48 + n) else Char.ofNat (87 + n)

/-- Lower-case hex encoding of a byte list (`.hexdigest()`). -/
def hexDigest (bytes : List Nat) : String :=
  String.mk (bytes.foldr (fun b acc => hexChar (b / 16) :: hexChar (b % 16) :: acc) [])

/-- UTF-8 encoding of one Unicode code point. -/
def utf8EncodeChar (c : Nat) : List Nat :=
  if c < 0x80 then [c]
  else if c < 0x800 then [0xc0 + c / 64, 0x80 + c % 64]
  else if c < 0x10000 then [0xe0 + c / 4096, 0x80 + (c / 64) % 64, 0x80 + c % 64]
  else [0xf0 + c / 262144, 0x80 + (c / 4096) % 64, 0x80 + (c / 64) % 64, 0x80 + c % 64]

/-- UTF-8 encoding of a string (Python `.encode('utf-8')`). -/
def utf8Encode (s : String) : List Nat :=
  (s.data.map (fun ch => utf8EncodeChar ch.toNat)).flatten

/-- Decimal digit character. -/
def digitChar (n : Nat) : Char := Char.ofNat (48 + n)

/-- Fuel-driven digit expansion; `fuel` bounds the number of digits, so any
`fuel > n` gives the full decimal expansion of `n`, most significant first. -/
def natToDecimalAux : Nat → Nat → List Char
  | 0, _ => []
  | fuel + 1, n =>
    if n < 10 then [digitChar n]
    else natToDecimalAux fuel (n / 10) ++ [digitChar (n % 10)]

/-- Decimal string of a natural number: the model of Python `str(int_value)`. -/
def natToDecimal (n : Nat) : String := String.mk (natToDecimalAux (n + 1) n)

/-- Value of a digit string, used to invert `natToDecimal`. -/
def digitsVal (cs : List Char) : Nat := cs.foldl (fun a c => 10 * a + (c.toNat - 48)) 0

/-- A Python dict with string keys/values, as an insertion-ordered
association list. -/
def PyDict := List (String × String)

/-- Python `d[k] = v`: replace the value in place if the key is present
(keeping its position), otherwise append the new binding at the end. -/
def dictSet (d : List (String × String)) (k v : String) : List (String × String) :=
  if d.any (fun kv => kv.1 == k) then
    d.map (fun kv => if kv.1 == k then (k, v) else kv)
  else d ++ [(k, v)]

/-- Python `d.get(k)` on the association list. -/
def dictGet (d : List (String × String)) (k : String) : Option String :=
  (d.find? (fun kv => kv.1 == k)).map (fun kv => kv.2)

/-- JSON string escaping for the characters that occur in this system's
payloads; `json.dumps` escapes the quote, the backslash and control
characters, and passes other characters through. -/
def jsonEscapeChar (c : Char) : List Char :=
  if c = '"' then ['\\', '"']
  else if c = '\\' then ['\\', '\\']
  else if c = '\n' then ['\\', 'n']
  else if c = '\t' then ['\\', 't']
  else if c = '\r' then ['\\', 'r']
  else [c]

/-- A JSON string literal: quoted, escaped. -/
def jsonStringLit (s : String) : String :=
  String.mk ('"' :: (s.data.map jsonEscapeChar).flatten ++ ['"'])

/-- Python `json.dumps` on a string-to-string dict with the default
separators `", "` and `": "`: `\x7b"k1": "v1", "k2": "v2"\x7d`, and `\x7b\x7d`
for the empty dict.  `httpx` serializes `json=data` request bodies with the
same default `json.dumps`. -/
def jsonDumps (d : List (String × String)) : String :=
  "\x7b" ++ String.intercalate ", "
    (d.map (fun kv => jsonStringLit kv.1 ++ ": " ++ jsonStringLit kv.2)) ++ "\x7d"

/-- The exchange client: `WhiteBitAPI.__init__` stores the key, the secret
and the fixed base URL. -/
structure WhiteBitAPI where
  api_key : String
  api_secret : String
  base_url : String := "https://whitebit.com"

/-- Model of `WhiteBitAPI._generate_signature`.  The Python method mutates the `data`
dict in place (`data["request"] = endpoint; data["nonce"] = str(int(time.time()
* 1000))`) and returns the hex HMAC-SHA512 of the serialized dict; the model
threads the mutation explicitly, returning the mutated dict with the
signature.  `nowMs` stands for `int(time.time() * 1000)` at this call. -/
def WhiteBitAPI.generate_signature (api : WhiteBitAPI) (endpoint : String)
    (data : List (String × String)) (nowMs : Nat) :
    (List (String × String)) × String :=
  let data1 := dictSet data "request" endpoint
  let data2 := dictSet data1 "nonce" (natToDecimal nowMs)
  let encoded_data := utf8Encode (jsonDumps data2)
  (data2, hexDigest (hmacSha512 (utf8Encode api.api_secret) encoded_data))

/-- The outbound HTTP POST assembled by `get_balance`: URL, headers, and the
body dict passed to `httpx` as `json=data`, recorded both as the dict and as
the byte string `httpx` sends for it (`json.dumps(data).encode('utf-8')`). -/
structure HttpRequest where
  url : String
  headers : List (String × String)
  bodyDict : List (String × String)
  bodyBytes : List Nat

/-- The pure request-building half of `WhiteBitAPI.get_balance` (lines
38-57 of `whitebit_api.py`): `data = \x7b\x7d`, sign (which mutates `data`),
then send `data` with the payload and signature headers.  Because
`_generate_signature` mutates the shared dict, the payload header, the
signature message and the request body all use the mutated dict. -/
def WhiteBitAPI.get_balance_request (api : WhiteBitAPI) (nowMs : Nat) : HttpRequest :=
  let endpoint := "/api/v4/trade-account/balance"
  let data : List (String × String) := []
  let signedAndData := api.generate_signature endpoint data nowMs
  let data' := signedAndData.1
  let signature := signedAndData.2
  { url := api.base_url ++ endpoint
    headers := [("Content-Type", "application/json"),
                ("X-TXC-APIKEY", api.api_key),
                ("X-TXC-PAYLOAD", jsonDumps data'),
                ("X-TXC-SIGNATURE", signature)]
    bodyDict := data'
    bodyBytes := utf8Encode (jsonDumps data') }

/-- A balance entry of the exchange response: currency code mapped to its
`available` and `freeze` string amounts (either may be absent, matching the
`data.get(..., 0)` accesses in `main.py`). -/
structure BalanceEntry where
  currency : String
  available : Option String
  freeze : Option String

/-- The exchange's HTTP response to the balance request: status code, raw
text, and the parsed JSON body (a currency-to-amounts mapping). -/
structure HttpResponse where
  status : Nat
  text : String
  jsonBody : List BalanceEntry

/-- The response-handling half of `WhiteBitAPI.get_balance` (lines 59-70):
status 200 returns `response.json()`; any other status raises an `Exception`
whose message carries the status and the body, which the enclosing
`except` re-wraps with the prefix `"Ошибка при получении баланса: "`. -/
def WhiteBitAPI.get_balance_response (resp : HttpResponse) :
    Except String (List BalanceEntry) :=
  if resp.status == 200 then Except.ok resp.jsonBody
  else
    Except.error ("Ошибка при получении баланса: " ++
      "Ошибка получения баланса. Статус: " ++ natToDecimal resp.status ++
      ", Ответ: " ++ resp.text)

/-- Outcome of the raw transport call in `test_connection`: either a response
status code, or a raised transport exception with its message. -/
inductive TransportResult where
  | ok (status : Nat)
  | raised (msg : String)
deriving DecidableEq

/-- Model of `WhiteBitAPI.test_connection` (lines 72-81): GET the public time
endpoint and return `status == 200`; any raised exception is swallowed
into `false`. -/
def WhiteBitAPI.test_connection (r : TransportResult) : Bool :=
  match r with
  | TransportResult.ok status => status == 200
  | TransportResult.raised _ => false

end WhiteBit

namespace Bot

open WhiteBit

/-- Python `text.startswith(pat)`: the pattern's characters are an initial
segment of the text's characters. -/
def startswith (s pat : String) : Bool := pat.data.isPrefixOf s.data

/-- The fixed command table `COMMANDS` of `main.py` (a dict, modelled in
insertion order). -/
def COMMANDS : List (String × String) :=
  [("/start", "📋 Показать список команд"),
   ("/balance", "💰 Показать баланс на бирже"),
   ("/help", "❓ Показать справку по командам")]

/-- Model of `get_commands_list`: the header followed by one `cmd - desc`
line per command. -/
def get_commands_list : String :=
  COMMANDS.foldl (fun m kv => m ++ kv.1 ++ " - " ++ kv.2 ++ "\n")
    "🤖 <b>Доступные команды:</b>\n\n"

/-- Python `s.split('.')`: the groups of characters between the dots. -/
def splitOnDot : List Char → List (List Char)
  | [] => [[]]
  | c :: rest =>
    let r := splitOnDot rest
    if c = '.' then [] :: r
    else
      match r with
      | [] => [[c]]
      | g :: gs => (c :: g) :: gs

/-- The exact rational value `±(ip·10^k + fp) / 10^k` of a plain decimal
string (optional sign, integer digits, optional fractional digits) — the
number CPython's `float(s)` rounds to the nearest IEEE-754 double; `none`
models the `ValueError` raised on non-numeric text.  Exponent, whitespace,
underscore and infinity forms that `float()` also accepts are outside this
model and map to `none`.  The downstream comparison `float(s) > 0` is not
exact-rational positivity — conversion underflows tiny positives to `0.0` —
and is modelled by `pyFloatPos` below. -/
def parsePyFloat (s : String) : Option ℚ :=
  let neg := startswith s "-"
  let body := if neg || startswith s "+" then s.data.drop 1 else s.data
  match splitOnDot body with
  | [ip] =>
    if !ip.isEmpty && ip.all Char.isDigit then
      some (if neg then -(digitsVal ip : ℚ) else (digitsVal ip : ℚ))
    else none
  | [ip, fp] =>
    if (!ip.isEmpty || !fp.isEmpty) && ip.all Char.isDigit && fp.all Char.isDigit then
      let v : ℚ := mkRat (digitsVal ip * 10 ^ fp.length + digitsVal fp) (10 ^ fp.length)
      some (if neg then -v else v)
    else none
  | _ => none

/-- Whether a decimal value compares as positive after CPython's `float()`
conversion.  `float(s)` rounds the exact value to the nearest IEEE-754
double with ties to even, so a nonnegative value yields a positive double
exactly when it exceeds `2^(-1075)`, half the smallest positive subnormal;
values in `(0, 2^(-1075)]` underflow to `0.0`, negative values round to a
nonpositive double, and values beyond the overflow threshold round to
positive infinity — so `float(s) > 0` holds iff the exact value is above
`2^(-1075)`. -/
def pyFloatPos (q : ℚ) : Bool := decide (mkRat 1 (2 ^ 1075) < q)

/-- One scan of Python's `pat in s` substring test. -/
def listContains (pat : List Char) : List Char → Bool
  | [] => pat.isPrefixOf []
  | c :: rest => pat.isPrefixOf (c :: rest) || listContains pat rest

/-- Python `pat in s` on strings. -/
def containsSub (s pat : String) : Bool := listContains pat.data s.data

/-- One line of the `/balance` reply:
`f"• \x7bcurrency\x7d: \x7bdata['available']\x7d (в ордерах: \x7bdata.get('freeze', 0)\x7d)\n"`
(a missing `freeze` prints as the default `0`). -/
def balance_line (e : BalanceEntry) : String :=
  "• " ++ e.currency ++ ": " ++ (match e.available with | some s => s | none => "") ++
    " (в ордерах: " ++ (match e.freeze with | some s => s | none => "0") ++ ")\n"

/-- The `/balance` formatting loop of `process_telegram_command` (lines
148-150 of `main.py`): keep a line for each entry where
`float(data.get('available', 0)) > 0` — the double obtained from the decimal
string is positive, per `pyFloatPos`; a `float()` conversion failure raises
`ValueError`, aborting the whole reply. -/
def balance_lines : List BalanceEntry → Except String (List String)
  | [] => Except.ok []
  | e :: rest =>
    match e.available with
    | none => balance_lines rest
    | some s =>
      match parsePyFloat s with
      | none => Except.error ("could not convert string to float: '" ++ s ++ "'")
      | some q =>
        if pyFloatPos q then (balance_lines rest).map (fun ls => balance_line e :: ls)
        else balance_lines rest

/-- Whether an entry's `available` amount parses and converts to a positive
double — the display condition of the `/balance` loop. -/
def availPos (e : BalanceEntry) : Bool :=
  match e.available with
  | none => false
  | some s =>
    match parsePyFloat s with
    | none => false
    | some q => pyFloatPos q

/-- The decimal literal for `1e-325` written out in full: `0.` followed by
324 zeros and a final `1`.  Exactly positive as a rational, but below the
IEEE-754 underflow threshold, so `float()` converts it to `0.0`. -/
def tinyDecimal : String := "0." ++ String.mk (List.replicate 324 '0') ++ "1"

/-- The module-level configuration of `main.py` that the router reads:
the single authorized chat id `TELEGRAM_CHAT_ID`. -/
structure BotConfig where
  telegram_chat_id : String

/-- Model of `process_telegram_command` (lines 122-158 of `main.py`).  The awaited
`whitebit.get_balance()` outcome is passed in as `balance` (`Except.error`
modelling a raised exception); the function returns the reply string.  The
`try`/`except` wrapping the body turns any raised exception — the balance
fetch or the `float()` conversion — into `"❌ Ошибка: " ++ message`. -/
def process_telegram_command (cfg : BotConfig) (text chat_id : String)
    (balance : Except String (List BalanceEntry)) : String :=
  if chat_id != cfg.telegram_chat_id then "⛔️ Доступ запрещен"
  else if startswith text "/start" || startswith text "/help" then get_commands_list
  else if startswith text "/balance" then
    match balance with
    | Except.error e => "❌ Ошибка: " ++ e
    | Except.ok entries =>
      match balance_lines entries with
      | Except.error e => "❌ Ошибка: " ++ e
      | Except.ok ls => "💰 <b>Баланс на WhiteBit:</b>\n\n" ++ String.join ls
  else "❌ Неизвестная команда. Отправьте /help для списка команд."

end Bot

namespace WhiteBit

theorem digitsVal_append_singleton (cs : List Char) (c : Char) :
    digitsVal (cs ++ [c]) = 10 * digitsVal cs + (c.toNat - 48) := by
  unfold digitsVal
  rw [List.foldl_append]
  rfl

theorem digitChar_toNat (n : Nat) (h : n < 10) : (digitChar n).toNat = 48 + n := by
  interval_cases n <;> rfl

theorem digitsVal_natToDecimalAux :
    ∀ fuel n : Nat, n < fuel → digitsVal (natToDecimalAux fuel n) = n := by
  intro fuel
  induction fuel with
  | zero => intro n h; omega
  | succ fuel ih =>
    intro n h
    unfold natToDecimalAux
    by_cases h10 : n < 10
    · rw [if_pos h10]
      show digitsVal [digitChar n] = n
      unfold digitsVal
      simp [digitChar_toNat n h10]
    · rw [if_neg h10]
      rw [digitsVal_append_singleton]
      have hdiv : n / 10 < fuel := by
        have := Nat.div_lt_self (by omega : 0 < n) (by omega : 1 < 10)
        omega
      rw [ih (n / 10) hdiv]
      rw [digitChar_toNat (n % 10) (Nat.mod_lt n (by omega))]
      omega

/-- Distinct naturals print to distinct decimal strings: the nonce is a
faithful image of the call's clock reading. -/
theorem natToDecimal_inj (m n : Nat) (h : natToDecimal m = natToDecimal n) : m = n := by
  have hm := digitsVal_natToDecimalAux (m + 1) m (by omega)
  have hn := digitsVal_natToDecimalAux (n + 1) n (by omega)
  have hd : natToDecimalAux (m + 1) m = natToDecimalAux (n + 1) n := by
    simpa [natToDecimal] using congrArg String.data h
  rw [hd] at hm
  omega

end WhiteBit

namespace Bot

theorem isPrefixOf_exists_suffix :
    ∀ l m : List Char, l.isPrefixOf m = true → ∃ t, m = l ++ t := by
  intro l
  induction l with
  | nil => intro m _; exact ⟨m, rfl⟩
  | cons a l ih =>
    intro m h
    cases m with
    | nil => simp at h
    | cons b m =>
      rw [List.isPrefixOf_cons₂, Bool.and_eq_true, beq_iff_eq] at h
      obtain ⟨t, ht⟩ := ih m h.2
      exact ⟨t, by rw [h.1, ht]; rfl⟩

theorem startswith_exists_suffix (s pat : String) (h : startswith s pat = true) :
    ∃ t, s.data = pat.data ++ t := by
  exact isPrefixOf_exists_suffix pat.data s.data h

/-- A text that starts with `/balance` starts with neither `/start` nor
`/help`, so the `/balance` dispatch branch is the one taken. -/
theorem startswith_balance_excludes (s : String) (h : startswith s "/balance" = true) :
    startswith s "/start" = false ∧ startswith s "/help" = false := by
  obtain ⟨t, ht⟩ := startswith_exists_suffix s "/balance" h
  unfold startswith
  rw [ht]
  constructor
  · show List.isPrefixOf ['/', 's', 't', 'a', 'r', 't']
      (['/', 'b', 'a', 'l', 'a', 'n', 'c', 'e'] ++ t) = false
    simp [List.isPrefixOf_cons₂]
  · show List.isPrefixOf ['/', 'h', 'e', 'l', 'p']
      (['/', 'b', 'a', 'l', 'a', 'n', 'c', 'e'] ++ t) = false
    simp [List.isPrefixOf_cons₂]

/-- Whether an entry's `available` amount converts under `float()` without
raising (vacuously true when the field is absent, since the default `0` is
an `int`). -/
def availParses (e : WhiteBit.BalanceEntry) : Bool :=
  match e.available with
  | none => true
  | some s => (parsePyFloat s).isSome

end Bot

namespace WhiteBit

theorem find?_map_set (d : List (String × String)) (k v : String)
    (h : d.any (fun kv => kv.1 == k) = true) :
    (d.map (fun kv => if kv.1 == k then (k, v) else kv)).find? (fun kv => kv.1 == k)
      = some (k, v) := by
  induction d with
  | nil => simp at h
  | cons a d ih =>
    rw [List.map_cons]
    by_cases hk : a.1 == k
    · rw [if_pos hk]
      rw [List.find?_cons_of_pos]
      simp
    · rw [if_neg hk]
      rw [List.find?_cons_of_neg _ (by simpa using hk)]
      apply ih
      rw [List.any_cons, Bool.or_eq_true] at h
      rcases h with h | h
      · exact absurd h hk
      · exact h

theorem find?_set_append (d : List (String × String)) (k v : String)
    (h : d.any (fun kv => kv.1 == k) = false) :
    (d ++ [(k, v)]).find? (fun kv => kv.1 == k) = some (k, v) := by
  induction d with
  | nil => simp
  | cons a d ih =>
    rw [List.any_cons, Bool.or_eq_false_iff] at h
    rw [List.cons_append, List.find?_cons_of_neg _ (by simp [h.1])]
    exact ih h.2

/-- Looking up a key just written by `dictSet` yields the written value. -/
theorem dictGet_dictSet (d : List (String × String)) (k v : String) :
    dictGet (dictSet d k v) k = some v := by
  unfold dictSet dictGet
  by_cases hany : d.any (fun kv => kv.1 == k) = true
  · rw [if_pos hany, find?_map_set d k v hany]
    rfl
  · have hfalse : d.any (fun kv => kv.1 == k) = false := by
      cases h2 : d.any (fun kv => kv.1 == k) with
      | false => rfl
      | true => exact absurd h2 hany
    rw [if_neg hany, find?_set_append d k v hfalse]
    rfl

/-- The mutated dict returned by `_generate_signature` is the input dict
with `request` and `nonce` written. -/
theorem generate_signature_fst (api : WhiteBitAPI) (endpoint : String)
    (data : List (String × String)) (nowMs : Nat) :
    (api.generate_signature endpoint data nowMs).1 =
      dictSet (dictSet data "request" endpoint) "nonce" (natToDecimal nowMs) := rfl

end WhiteBit

/-- C1: for every sender chat id other than the configured authorized chat
id, `process_telegram_command` returns the access-denied message, and its
result does not depend on the exchange-balance outcome — no command is
dispatched and `get_balance` is never consulted. -/
theorem c1_unauthorized_denied (cfg : Bot.BotConfig) (text chat_id : String)
    (balance balance' : Except String (List WhiteBit.BalanceEntry))
    (h : chat_id ≠ cfg.telegram_chat_id) :
    Bot.process_telegram_command cfg text chat_id balance = "⛔️ Доступ запрещен" ∧
    Bot.process_telegram_command cfg text chat_id balance =
      Bot.process_telegram_command cfg text chat_id balance' := by
  have hb : (chat_id != cfg.telegram_chat_id) = true := by simpa using h
  constructor
  · simp [Bot.process_telegram_command, hb]
  · simp [Bot.process_telegram_command, hb]

theorem c1_witness :
    ("41" : String) ≠ "42" ∧
    Bot.process_telegram_command ⟨"42"⟩ "/balance" "41" (Except.error "boom")
      = "⛔️ Доступ запрещен" :=
  ⟨by decide,
   (c1_unauthorized_denied ⟨"42"⟩ "/balance" "41" (Except.error "boom")
     (Except.ok []) (by decide)).1⟩

set_option maxRecDepth 100000 in
/-- C2: on every signed balance request, the `X-TXC-SIGNATURE` header is the
hex HMAC-SHA512, keyed by the API secret, of exactly the bytes carried by the
`X-TXC-PAYLOAD` header, which is the JSON serialization of the body dict with
`request` = endpoint path and `nonce` inserted; with the nonce stubbed to
`1700000000000` and secret `"secret"`, the signature equals the precomputed
digest (cross-checked with OpenSSL). -/
theorem c2_signature_hmac (api : WhiteBit.WhiteBitAPI) (nowMs : Nat) :
    WhiteBit.dictGet (WhiteBit.WhiteBitAPI.get_balance_request api nowMs).headers
        "X-TXC-PAYLOAD"
      = some (WhiteBit.jsonDumps (WhiteBit.dictSet
          (WhiteBit.dictSet [] "request" "/api/v4/trade-account/balance")
          "nonce" (WhiteBit.natToDecimal nowMs))) ∧
    WhiteBit.dictGet (WhiteBit.WhiteBitAPI.get_balance_request api nowMs).headers
        "X-TXC-SIGNATURE"
      = some (WhiteBit.hexDigest (WhiteBit.hmacSha512
          (WhiteBit.utf8Encode api.api_secret)
          (WhiteBit.utf8Encode (WhiteBit.jsonDumps (WhiteBit.dictSet
            (WhiteBit.dictSet [] "request" "/api/v4/trade-account/balance")
            "nonce" (WhiteBit.natToDecimal nowMs)))))) ∧
    WhiteBit.hexDigest (WhiteBit.hmacSha512 (WhiteBit.utf8Encode "secret")
        (WhiteBit.utf8Encode
          "\x7b\"request\": \"/api/v4/trade-account/balance\", \"nonce\": \"1700000000000\"\x7d"))
      = "15e430aa3e23e0e7a981cb64c98a1b21014e54a6ffcfce3eb58f36d4e2987048ab951f326f689f2e7e55ce2333e7721792086112eaf79b863f33dc6ab0c72a91" := by
  refine ⟨rfl, rfl, ?_⟩
  rfl

/-- C3: `get_balance` returns the parsed exchange response verbatim when the
HTTP status is 200, and otherwise fails with the single generic failure kind
whose message carries the status code and the response body. -/
theorem c3_get_balance_status (resp : WhiteBit.HttpResponse) :
    (resp.status = 200 →
      WhiteBit.WhiteBitAPI.get_balance_response resp = Except.ok resp.jsonBody) ∧
    (resp.status ≠ 200 →
      WhiteBit.WhiteBitAPI.get_balance_response resp =
        Except.error ("Ошибка при получении баланса: " ++
          "Ошибка получения баланса. Статус: " ++ WhiteBit.natToDecimal resp.status ++
          ", Ответ: " ++ resp.text)) := by
  constructor
  · intro h
    simp [WhiteBit.WhiteBitAPI.get_balance_response, h]
  · intro h
    simp [WhiteBit.WhiteBitAPI.get_balance_response, h]

theorem c3_witness :
    WhiteBit.WhiteBitAPI.get_balance_response ⟨200, "raw", [⟨"BTC", some "0.5", some "0.1"⟩]⟩
      = Except.ok [⟨"BTC", some "0.5", some "0.1"⟩] ∧
    WhiteBit.WhiteBitAPI.get_balance_response ⟨503, "service down", []⟩
      = Except.error
          "Ошибка при получении баланса: Ошибка получения баланса. Статус: 503, Ответ: service down" := by
  constructor
  · exact (c3_get_balance_status ⟨200, "raw", [⟨"BTC", some "0.5", some "0.1"⟩]⟩).1 rfl
  · have h := (c3_get_balance_status ⟨503, "service down", []⟩).2 (by decide)
    exact h

/-- C4: when an authorized `/balance` command's balance fetch fails, the
router catches the failure and returns the user-visible error string; the
router is a total function, so no exception propagates. -/
theorem c4_balance_error_caught (cfg : Bot.BotConfig) (text e : String)
    (htext : Bot.startswith text "/balance" = true) :
    Bot.process_telegram_command cfg text cfg.telegram_chat_id (Except.error e) =
      "❌ Ошибка: " ++ e := by
  obtain ⟨h1, h2⟩ := Bot.startswith_balance_excludes text htext
  simp [Bot.process_telegram_command, h1, h2, htext]

theorem c4_witness :
    Bot.startswith "/balance" "/balance" = true ∧
    Bot.process_telegram_command ⟨"42"⟩ "/balance" "42"
        (Except.error "Ошибка при получении баланса: boom")
      = "❌ Ошибка: Ошибка при получении баланса: boom" :=
  ⟨by decide, c4_balance_error_caught ⟨"42"⟩ "/balance"
    "Ошибка при получении баланса: boom" (by decide)⟩

/-- C5: `test_connection` is true exactly when the public status endpoint
answers HTTP 200, and a raised transport failure yields `false` rather than
propagating. -/
theorem c5_test_connection_iff (r : WhiteBit.TransportResult) :
    (WhiteBit.WhiteBitAPI.test_connection r = true ↔
      r = WhiteBit.TransportResult.ok 200) ∧
    (∀ msg, WhiteBit.WhiteBitAPI.test_connection (WhiteBit.TransportResult.raised msg)
      = false) := by
  constructor
  · cases r with
    | ok s => simp [WhiteBit.WhiteBitAPI.test_connection]
    | raised m => simp [WhiteBit.WhiteBitAPI.test_connection]
  · intro msg
    rfl

theorem c5_witness :
    WhiteBit.WhiteBitAPI.test_connection (WhiteBit.TransportResult.ok 200) = true ∧
    WhiteBit.WhiteBitAPI.test_connection (WhiteBit.TransportResult.ok 404) = false ∧
    WhiteBit.WhiteBitAPI.test_connection
      (WhiteBit.TransportResult.raised "connection refused") = false := by
  refine ⟨(c5_test_connection_iff (WhiteBit.TransportResult.ok 200)).1.mpr rfl, ?_, ?_⟩
  · cases hb : WhiteBit.WhiteBitAPI.test_connection (WhiteBit.TransportResult.ok 404) with
    | false => rfl
    | true =>
      have h := (c5_test_connection_iff (WhiteBit.TransportResult.ok 404)).1.mp hb
      exact absurd h (by decide)
  · exact (c5_test_connection_iff (WhiteBit.TransportResult.ok 0)).2 "connection refused"

/-- C6: the serialized signed body — the dict with `request` and `nonce`
inserted — is one byte sequence used three ways: it is the message the HMAC
signs, the `X-TXC-PAYLOAD` header, and the HTTP request body that `httpx`
serializes from the same mutated dict. -/
theorem c6_exact_bytes (api : WhiteBit.WhiteBitAPI) (nowMs : Nat) :
    (WhiteBit.WhiteBitAPI.get_balance_request api nowMs).bodyDict =
      WhiteBit.dictSet (WhiteBit.dictSet [] "request" "/api/v4/trade-account/balance")
        "nonce" (WhiteBit.natToDecimal nowMs) ∧
    (WhiteBit.WhiteBitAPI.get_balance_request api nowMs).bodyBytes =
      WhiteBit.utf8Encode (WhiteBit.jsonDumps
        ((WhiteBit.WhiteBitAPI.get_balance_request api nowMs).bodyDict)) ∧
    WhiteBit.dictGet (WhiteBit.WhiteBitAPI.get_balance_request api nowMs).headers
        "X-TXC-PAYLOAD"
      = some (WhiteBit.jsonDumps
          ((WhiteBit.WhiteBitAPI.get_balance_request api nowMs).bodyDict)) ∧
    WhiteBit.dictGet (WhiteBit.WhiteBitAPI.get_balance_request api nowMs).headers
        "X-TXC-SIGNATURE"
      = some (WhiteBit.hexDigest (WhiteBit.hmacSha512
          (WhiteBit.utf8Encode api.api_secret)
          (WhiteBit.WhiteBitAPI.get_balance_request api nowMs).bodyBytes)) :=
  ⟨rfl, rfl, rfl, rfl⟩

/-- C7 counterexample: at a concrete key, secret and clock reading, the body
dict `get_balance` hands to the HTTP client is the mutated dict containing
the inserted `request` and `nonce` keys — not the original empty body — and
`_generate_signature` hands back the caller's dict mutated, not unchanged. -/
theorem c7_counterexample :
    (WhiteBit.WhiteBitAPI.get_balance_request ⟨"key", "secret", "https://whitebit.com"⟩
        1700000000000).bodyDict =
      [("request", "/api/v4/trade-account/balance"), ("nonce", "1700000000000")] ∧
    ((WhiteBit.WhiteBitAPI.get_balance_request ⟨"key", "secret", "https://whitebit.com"⟩
        1700000000000).bodyDict == ([] : List (String × String))) = false ∧
    ((WhiteBit.WhiteBitAPI.generate_signature ⟨"key", "secret", "https://whitebit.com"⟩
        "/api/v4/trade-account/balance" [] 1700000000000).1
      == ([] : List (String × String))) = false :=
  ⟨rfl, rfl, rfl⟩

/-- C7 amended: `get_balance` sends the mutated body — the dict with the
`request` and `nonce` keys inserted by signing — as the HTTP request
payload, identical to the dict serialized into the `X-TXC-PAYLOAD` header,
and `_generate_signature` hands the caller's dict back with those two keys
written into it. -/
theorem c7_amended_mutated_body (api : WhiteBit.WhiteBitAPI) (nowMs : Nat)
    (endpoint : String) (data : List (String × String)) :
    (WhiteBit.WhiteBitAPI.get_balance_request api nowMs).bodyDict =
      (WhiteBit.WhiteBitAPI.generate_signature api "/api/v4/trade-account/balance"
        [] nowMs).1 ∧
    WhiteBit.dictGet (WhiteBit.WhiteBitAPI.get_balance_request api nowMs).headers
        "X-TXC-PAYLOAD"
      = some (WhiteBit.jsonDumps
          ((WhiteBit.WhiteBitAPI.get_balance_request api nowMs).bodyDict)) ∧
    (WhiteBit.WhiteBitAPI.generate_signature api endpoint data nowMs).1 =
      WhiteBit.dictSet (WhiteBit.dictSet data "request" endpoint) "nonce"
        (WhiteBit.natToDecimal nowMs) :=
  ⟨rfl, rfl, rfl⟩

/-- C8: the `nonce` written into the signed dict on a call whose clock reads
`nowMs` milliseconds is exactly the decimal string of `nowMs` — recomputed
from the clock on every call, overwriting any `nonce` already present — and
calls at different clock readings produce different nonces. -/
theorem c8_nonce_fresh (api : WhiteBit.WhiteBitAPI) (endpoint : String)
    (data : List (String × String)) (nowMs nowMs' : Nat) (h : nowMs ≠ nowMs') :
    WhiteBit.dictGet (WhiteBit.WhiteBitAPI.generate_signature api endpoint data nowMs).1
        "nonce"
      = some (WhiteBit.natToDecimal nowMs) ∧
    WhiteBit.dictGet (WhiteBit.WhiteBitAPI.generate_signature api endpoint data nowMs).1
        "nonce"
      ≠ WhiteBit.dictGet (WhiteBit.WhiteBitAPI.generate_signature api endpoint data nowMs').1
        "nonce" := by
  constructor
  · rw [WhiteBit.generate_signature_fst]
    exact WhiteBit.dictGet_dictSet _ "nonce" _
  · rw [WhiteBit.generate_signature_fst, WhiteBit.generate_signature_fst,
      WhiteBit.dictGet_dictSet, WhiteBit.dictGet_dictSet]
    intro heq
    exact h (WhiteBit.natToDecimal_inj _ _ (by simpa using heq))

theorem c8_witness :
    (1700000000000 : Nat) ≠ 1700000000001 ∧
    WhiteBit.dictGet (WhiteBit.WhiteBitAPI.generate_signature
        ⟨"key", "secret", "https://whitebit.com"⟩ "/api/v4/trade-account/balance"
        [] 1700000000000).1 "nonce" = some "1700000000000" := by
  refine ⟨by decide, ?_⟩
  exact (c8_nonce_fresh ⟨"key", "secret", "https://whitebit.com"⟩
    "/api/v4/trade-account/balance" [] 1700000000000 1700000000001 (by decide)).1

/-- C9: for the authorized sender, dispatch is by prefix match — `/start`
and `/help` texts get the formatted command list, `/balance` texts get the
formatted balances, and anything else gets the unknown-command hint (a
returned string, not an exception). -/
theorem c9_dispatch_branches (cfg : Bot.BotConfig) (text : String)
    (balance : Except String (List WhiteBit.BalanceEntry)) :
    ((Bot.startswith text "/start" = true ∨ Bot.startswith text "/help" = true) →
      Bot.process_telegram_command cfg text cfg.telegram_chat_id balance
        = Bot.get_commands_list) ∧
    (Bot.startswith text "/balance" = true →
      ∀ entries ls, balance = Except.ok entries →
        Bot.balance_lines entries = Except.ok ls →
        Bot.process_telegram_command cfg text cfg.telegram_chat_id balance
          = "💰 <b>Баланс на WhiteBit:</b>\n\n" ++ String.join ls) ∧
    (Bot.startswith text "/start" = false → Bot.startswith text "/help" = false →
      Bot.startswith text "/balance" = false →
      Bot.process_telegram_command cfg text cfg.telegram_chat_id balance
        = "❌ Неизвестная команда. Отправьте /help для списка команд.") := by
  refine ⟨?_, ?_, ?_⟩
  · rintro (h | h) <;> simp [Bot.process_telegram_command, h]
  · intro h entries ls hb hl
    obtain ⟨h1, h2⟩ := Bot.startswith_balance_excludes text h
    subst hb
    simp [Bot.process_telegram_command, h, h1, h2, hl]
  · intro h1 h2 h3
    simp [Bot.process_telegram_command, h1, h2, h3]

theorem c9_witness :
    Bot.process_telegram_command ⟨"42"⟩ "/start" "42" (Except.error "e")
      = Bot.get_commands_list ∧
    Bot.process_telegram_command ⟨"42"⟩ "/help" "42" (Except.error "e")
      = Bot.get_commands_list ∧
    Bot.process_telegram_command ⟨"42"⟩ "/balance" "42" (Except.ok [])
      = "💰 <b>Баланс на WhiteBit:</b>\n\n" ∧
    Bot.process_telegram_command ⟨"42"⟩ "/foo" "42" (Except.error "e")
      = "❌ Неизвестная команда. Отправьте /help для списка команд." := by
  refine ⟨?_, ?_, ?_, ?_⟩
  · exact (c9_dispatch_branches ⟨"42"⟩ "/start" (Except.error "e")).1 (Or.inl (by decide))
  · exact (c9_dispatch_branches ⟨"42"⟩ "/help" (Except.error "e")).1 (Or.inr (by decide))
  · exact (c9_dispatch_branches ⟨"42"⟩ "/balance" (Except.ok [])).2.1
      (by decide) [] [] rfl rfl
  · exact (c9_dispatch_branches ⟨"42"⟩ "/foo" (Except.error "e")).2.2
      (by decide) (by decide) (by decide)

namespace Bot

/-- When every present `available` amount converts, the `/balance` loop
produces exactly one line per entry with positive available amount, in
order. -/
theorem balance_lines_eq_filter :
    ∀ entries : List WhiteBit.BalanceEntry, entries.all availParses = true →
      balance_lines entries = Except.ok ((entries.filter availPos).map balance_line) := by
  intro entries
  induction entries with
  | nil => intro _; rfl
  | cons e rest ih =>
    intro h
    rw [List.all_cons, Bool.and_eq_true] at h
    have hrest := ih h.2
    cases he : e.available with
    | none =>
      have hpos : availPos e = false := by simp [availPos, he]
      simp [balance_lines, he, hrest, List.filter_cons, hpos]
    | some s =>
      have hparse : (parsePyFloat s).isSome = true := by
        have hp := h.1
        unfold availParses at hp
        rw [he] at hp
        exact hp
      cases hp : parsePyFloat s with
      | none => rw [hp] at hparse; simp at hparse
      | some q =>
        cases hq : pyFloatPos q with
        | true =>
          have hpos : availPos e = true := by simp [availPos, he, hp, hq]
          simp [balance_lines, he, hp, hq, hrest, List.filter_cons, hpos, Except.map]
        | false =>
          have hpos : availPos e = false := by simp [availPos, he, hp, hq]
          simp [balance_lines, he, hp, hq, hrest, List.filter_cons, hpos]

end Bot

set_option maxRecDepth 100000 in
/-- C10 counterexample: the original claim promises a line for every
currency with nonzero positive available amount, but the amount `1e-325`
(written as a plain decimal) is strictly positive as an exact number while
CPython's `float()` underflows it to `0.0`, so the program omits its line:
the display condition is positivity of the converted double, not of the
exact amount. -/
theorem c10_counterexample :
    Bot.parsePyFloat Bot.tinyDecimal = some (mkRat 1 (10 ^ 325)) ∧
    (0 : ℚ) < mkRat 1 (10 ^ 325) ∧
    Bot.availPos ⟨"DOGE", some Bot.tinyDecimal, some "0"⟩ = false ∧
    Bot.balance_lines [⟨"DOGE", some Bot.tinyDecimal, some "0"⟩] = Except.ok [] := by
  refine ⟨by rfl, by decide, by decide, by rfl⟩

set_option maxRecDepth 100000 in
/-- C10 (amended): whenever every present `available` amount converts, the
`/balance` reply has a line for exactly the currencies whose available
amount converts to a positive double — exact value above `2^(-1075)`, the
underflow threshold of `float(...) > 0`, which positive amounts at or below
it and all zero or negative amounts fail — in response order; on the mocked
response the formatted reply carries the BTC line and no occurrence of
USD. -/
theorem c10_balance_filter (entries : List WhiteBit.BalanceEntry)
    (h : entries.all Bot.availParses = true) :
    Bot.balance_lines entries
      = Except.ok ((entries.filter Bot.availPos).map Bot.balance_line) ∧
    Bot.process_telegram_command ⟨"42"⟩ "/balance" "42"
        (Except.ok [⟨"BTC", some "0.5", some "0.1"⟩, ⟨"USD", some "0", some "0"⟩])
      = "💰 <b>Баланс на WhiteBit:</b>\n\n• BTC: 0.5 (в ордерах: 0.1)\n" ∧
    Bot.containsSub "💰 <b>Баланс на WhiteBit:</b>\n\n• BTC: 0.5 (в ордерах: 0.1)\n"
      "• BTC: 0.5 (в ордерах: 0.1)\n" = true ∧
    Bot.containsSub "💰 <b>Баланс на WhiteBit:</b>\n\n• BTC: 0.5 (в ордерах: 0.1)\n"
      "USD" = false := by
  refine ⟨Bot.balance_lines_eq_filter entries h, by decide, by decide, by decide⟩

set_option maxRecDepth 100000 in
theorem c10_witness :
    ([⟨"BTC", some "0.5", some "0.1"⟩, ⟨"USD", some "0", some "0"⟩] :
        List WhiteBit.BalanceEntry).all Bot.availParses = true ∧
    Bot.balance_lines [⟨"BTC", some "0.5", some "0.1"⟩, ⟨"USD", some "0", some "0"⟩]
      = Except.ok ["• BTC: 0.5 (в ордерах: 0.1)\n"] := by
  refine ⟨by decide, ?_⟩
  exact (c10_balance_filter
    [⟨"BTC", some "0.5", some "0.1"⟩, ⟨"USD", some "0", some "0"⟩] (by decide)).1
